import Mathlib

/-!
Verification of the metrics-reporting bridge in
`sdks/go/pkg/beam/core/runtime/harness/monitoring.go`.

The Go source is shallowly embedded below: pure functions become Lean
functions, the mutable `shortIDCache` becomes explicit state passing on a
`ShortIDCache` structure, Go maps become association lists, `int64` values
become `Int` (with reduction modulo `2 ^ 64` where the code casts to
`uint64`), byte slices become `List Nat`, and fallible code returns
`Except String`.  Panics are modelled as `Except.error`.
-/

set_option autoImplicit false


/-! ## Protocol schema registry (`sUrns`, `sTypes`, `urnToType`) -/

/-- The metric-kind URNs, in declaration order (`sUrns` in the source). -/
def sUrns : List String :=
  [("beam:metric:user:sum_int64:v1"),
   ("beam:metric:user:sum_double:v1"),
   ("beam:metric:user:distribution_int64:v1"),
   ("beam:metric:user:distribution_double:v1"),
   ("beam:metric:user:latest_int64:v1"),
   ("beam:metric:user:latest_double:v1"),
   ("beam:metric:user:top_n_int64:v1"),
   ("beam:metric:user:top_n_double:v1"),
   ("beam:metric:user:bottom_n_int64:v1"),
   ("beam:metric:user:bottom_n_double:v1"),
   ("beam:metric:element_count:v1"),
   ("beam:metric:sampled_byte_size:v1"),
   ("beam:metric:pardo_execution_time:start_bundle_msecs:v1"),
   ("beam:metric:pardo_execution_time:process_bundle_msecs:v1"),
   ("beam:metric:pardo_execution_time:finish_bundle_msecs:v1"),
   ("beam:metric:ptransform_execution_time:total_msecs:v1"),
   ("beam:metric:ptransform_progress:remaining:v1"),
   ("beam:metric:ptransform_progress:completed:v1"),
   ("TestingSentinelUrn")]

/-- The wire-type identifiers, in declaration order (`sTypes` in the source). -/
def sTypes : List String :=
  [("beam:metrics:sum_int64:v1"),
   ("beam:metrics:sum_double:v1"),
   ("beam:metrics:distribution_int64:v1"),
   ("beam:metrics:distribution_double:v1"),
   ("beam:metrics:latest_int64:v1"),
   ("beam:metrics:latest_double:v1"),
   ("beam:metrics:top_n_int64:v1"),
   ("beam:metrics:top_n_double:v1"),
   ("beam:metrics:bottom_n_int64:v1"),
   ("beam:metrics:bottom_n_double:v1"),
   ("beam:metrics:monitoring_table:v1"),
   ("beam:metrics:progress:v1"),
   ("TestingSentinelType")]

abbrev urnUserSumInt64 : Nat := 0

abbrev urnUserSumFloat64 : Nat := 1

abbrev urnUserDistInt64 : Nat := 2

abbrev urnUserDistFloat64 : Nat := 3

abbrev urnUserLatestMsInt64 : Nat := 4

abbrev urnUserLatestMsFloat64 : Nat := 5

abbrev urnUserTopNInt64 : Nat := 6

abbrev urnUserTopNFloat64 : Nat := 7

abbrev urnUserBottomNInt64 : Nat := 8

abbrev urnUserBottomNFloat64 : Nat := 9

abbrev urnElementCount : Nat := 10

abbrev urnSampledByteSize : Nat := 11

abbrev urnStartBundle : Nat := 12

abbrev urnProcessBundle : Nat := 13

abbrev urnFinishBundle : Nat := 14

abbrev urnTransformTotalTime : Nat := 15

abbrev urnProgressRemaining : Nat := 16

abbrev urnProgressCompleted : Nat := 17

abbrev urnTestSentinel : Nat := 18

abbrev typeSumInt64 : Nat := 0

abbrev typeSumFloat64 : Nat := 1

abbrev typeDistInt64 : Nat := 2

abbrev typeDistFloat64 : Nat := 3

abbrev typeLatestMsInt64 : Nat := 4

abbrev typeLatestMsFloat64 : Nat := 5

abbrev typeTopNInt64 : Nat := 6

abbrev typeTopNFloat64 : Nat := 7

abbrev typeBottomNInt64 : Nat := 8

abbrev typeBottomNFloat64 : Nat := 9

abbrev typeMonitoringTable : Nat := 10

abbrev typeProgress : Nat := 11

abbrev typeTestSentinel : Nat := 12

/-- `urnToType` maps a urn to its encoding type, mirroring the `switch` in
the source case for case (including the `urnUserBottomNInt64` case, which
the source maps to `typeSumInt64`).  The `default` branch of the source
panics; that is modelled as `none`. -/
def urnToType (u : Nat) : Option Nat :=
  if u = urnUserSumInt64 ∨ u = urnElementCount ∨ u = urnStartBundle ∨
      u = urnProcessBundle ∨ u = urnFinishBundle ∨ u = urnTransformTotalTime then
    some typeSumInt64
  else if u = urnUserSumFloat64 then some typeSumFloat64
  else if u = urnUserDistInt64 ∨ u = urnSampledByteSize then some typeDistInt64
  else if u = urnUserDistFloat64 then some typeDistFloat64
  else if u = urnUserLatestMsInt64 then some typeLatestMsInt64
  else if u = urnUserLatestMsFloat64 then some typeLatestMsFloat64
  else if u = urnUserTopNInt64 then some typeTopNInt64
  else if u = urnUserTopNFloat64 then some typeTopNFloat64
  else if u = urnUserBottomNInt64 then some typeSumInt64
  else if u = urnUserBottomNFloat64 then some typeBottomNFloat64
  else if u = urnProgressRemaining ∨ u = urnProgressCompleted then some typeProgress
  else if u = urnTestSentinel then some typeTestSentinel
  else none

/-- `urnToType` again, with the `default` branch's panic modelled in
full: the branch panics with the message
`"metric urn without specified type" + sUrns[u]`, and the Go slice
indexing `sUrns[u]` inside that message is itself a fallible operation
that panics with an index-out-of-range runtime error when `u` is outside
the range of `sUrns` — which is the case for every `u` that reaches the
`default` branch, since the switch covers all 19 declared urns. -/
def urnToTypeE (u : Nat) : Except String Nat :=
  match urnToType u with
  | some t => Except.ok t
  | none =>
    match sUrns.get? u with
    | some s => Except.error (("metric urn without specified type") ++ s)
    | none => Except.error ("runtime error: index out of range")


/-! ## Payload codec

`coder.EncodeVarInt` lives in `core/graph/coder`, outside the provided
source tree, so it is modelled from the spec. -/

/-- `toUint64` models Go's cast of an `int64` to `uint64`: reduction
modulo `2 ^ 64`. -/
def toUint64 (v : Int) : Nat := (v % ((2 : Int) ^ 64)).toNat

/-- One step of the varint loop: emit the low 7 bits, set the continuation
bit when more significant bits remain.  The first argument is fuel; ten
bytes always suffice for a 64-bit value, matching the bounded loop the
encoding performs on `uint64` inputs. -/
def varintAux : Nat → Nat → List Nat
  | 0, v => [v % 128]
  | fuel + 1, v => if v / 128 = 0 then [v % 128] else (v % 128 + 128) :: varintAux fuel (v / 128)

/-- Modelled from the spec: `coder.EncodeVarInt` (not under `src/`) writes
the base-128 varint of its `int64` argument, 7 significant bits per byte,
continuation bit in the high bit, least-significant group first, after
casting the value to `uint64`. -/
def encodeVarInt (v : Int) : List Nat := varintAux 9 (toUint64 v)

/-- Modelled from the spec: `coder.EncodeVarInt` appends to an in-memory
`bytes.Buffer` whose writes cannot fail, so the write step always
succeeds. -/
def encodeVarIntBuf (v : Int) (buf : List Nat) : Except String (List Nat) :=
  Except.ok (buf ++ encodeVarInt v)

/-- `int64Counter` from the source: a single varint in a fresh buffer. -/
def int64Counter (v : Int) : Except String (List Nat) :=
  match encodeVarIntBuf v [] with
  | Except.error e => Except.error e
  | Except.ok buf => Except.ok buf

/-- `int64Latest` from the source.  The Go function converts its
`time.Time` argument to epoch milliseconds via `mtime.FromTime`; the
timestamp is modelled directly as those milliseconds. -/
def int64Latest (tMillis v : Int) : Except String (List Nat) :=
  match encodeVarIntBuf tMillis [] with
  | Except.error e => Except.error e
  | Except.ok buf =>
    match encodeVarIntBuf v buf with
    | Except.error e => Except.error e
    | Except.ok buf => Except.ok buf

/-- `int64Distribution` from the source: four varints in the fixed order
count, sum, min, max. -/
def int64Distribution (count sum min max : Int) : Except String (List Nat) :=
  match encodeVarIntBuf count [] with
  | Except.error e => Except.error e
  | Except.ok buf =>
    match encodeVarIntBuf sum buf with
    | Except.error e => Except.error e
    | Except.ok buf =>
      match encodeVarIntBuf min buf with
      | Except.error e => Except.error e
      | Except.ok buf =>
        match encodeVarIntBuf max buf with
        | Except.error e => Except.error e
        | Except.ok buf => Except.ok buf


/-! ## Association lists (Go maps) -/

/-- Lookup in an association list, the model of Go map indexing. -/
def assocLookup {α β : Type} [DecidableEq α] : List (α × β) → α → Option β
  | [], _ => none
  | (k, v) :: rest, a => if k = a then some v else assocLookup rest a

/-- Insert-or-replace in an association list, the model of Go map
assignment. -/
def assocInsert {α β : Type} [DecidableEq α] : List (α × β) → α → β → List (α × β)
  | [], a, b => [(a, b)]
  | (k, v) :: rest, a, b => if k = a then (a, b) :: rest else (k, v) :: assocInsert rest a b


/-! ## Base-36 short-id tokens (`strconv.FormatInt(id, 36)`) -/

/-- The base-36 digit characters used by `strconv.FormatInt`:
`0`-`9` then `a`-`z`. -/
def digitChar36 (d : Nat) : Char :=
  if d < 10 then Char.ofNat (48 + d) else Char.ofNat (87 + d)

/-- Little-endian base-36 digits of `n`.  The first argument is fuel;
`fuel = n` always suffices since each step divides by 36. -/
def digits36Aux : Nat → Nat → List Nat
  | 0, _ => []
  | fuel + 1, n => if n = 0 then [] else n % 36 :: digits36Aux fuel (n / 36)

/-- `strconv.FormatInt(id, 36)` for the non-negative ids the cache
allocates: most-significant digit first, lowercase digits. -/
def formatInt36 (n : Nat) : String :=
  if n = 0 then ("0") else String.mk ((digits36Aux n n).reverse.map digitChar36)

/-- Value of a little-endian base-36 digit list. -/
def val36 : List Nat → Nat
  | [] => 0
  | d :: ds => d + 36 * val36 ds


/-! ## Short-identifier cache (`shortIDCache`) -/

/-- `metrics.Labels`: the identity labels of a user metric.  Field names
follow the Go accessors `Transform()`, `Namespace()`, `Name()`. -/
structure Labels where
  Transform : String
  Namespace : String
  Name : String

deriving DecidableEq

/-- `shortKey`: a metric identity, `metrics.Labels` plus the urn. -/
abbrev ShortKey := Labels × Nat

/-- `ppb.MonitoringInfo`: urn, wire type, labels, payload.  The pointer
fields the source never sets stay at their zero values. -/
structure MonitoringInfo where
  urn : String := ("")
  type : String := ("")
  labels : List (String × String) := []
  payload : List Nat := []

deriving DecidableEq

/-- `shortIDCache`: both lookup maps and the id counter, as one value that
is threaded explicitly instead of being mutated under the mutex. -/
structure ShortIDCache where
  labels2ShortIds : List (ShortKey × String) := []
  shortIds2Infos : List (String × MonitoringInfo) := []
  lastShortID : Nat := 0

deriving DecidableEq

/-- `newShortIDCache`: empty maps, counter at zero. -/
def newShortIDCache : ShortIDCache := {}

/-- `getNextShortID`: increment the counter and render it in base 36. -/
def ShortIDCache.getNextShortID (c : ShortIDCache) : String × ShortIDCache :=
  let id := c.lastShortID + 1
  (formatInt36 id, { c with lastShortID := id })

/-- `userLabels` from the source. -/
def userLabels (l : Labels) : List (String × String) :=
  [(("PTRANSFORM"), l.Transform), (("NAMESPACE"), l.Namespace), (("NAME"), l.Name)]

/-- `getShortID`: return the cached short id for the identity, or
allocate a fresh one and record both mappings.  The `sUrns[urn]` index
inside `urnToType`'s panic path is modelled by the error result. -/
def ShortIDCache.getShortID (c : ShortIDCache) (l : Labels) (urn : Nat) :
    Except String (String × ShortIDCache) :=
  match assocLookup c.labels2ShortIds (l, urn) with
  | some s => Except.ok (s, c)
  | none =>
    match urnToType urn with
    | none => Except.error ("metric urn without specified type")
    | some t =>
      let s := c.getNextShortID.1
      let c1 := c.getNextShortID.2
      Except.ok (s,
        { c1 with
          labels2ShortIds := assocInsert c1.labels2ShortIds (l, urn) s,
          shortIds2Infos := assocInsert c1.shortIds2Infos s
            { urn := sUrns.getD urn (""), type := sTypes.getD t (""),
              labels := userLabels l, payload := [] } })

/-- `shortIdsToInfos`: batch metadata lookup; a missing short id yields
`none`, the model of the `nil` pointer Go stores for absent map keys. -/
def ShortIDCache.shortIdsToInfos (c : ShortIDCache) (shortids : List String) :
    List (String × Option MonitoringInfo) :=
  shortids.map (fun s => (s, assocLookup c.shortIds2Infos s))

/-- Well-formedness invariant of the cache: every assigned short id is the
base-36 rendering of a counter value between 1 and `lastShortID`, distinct
identities hold distinct short ids, and every assigned short id has a
stored metadata descriptor. -/
structure CacheWF (c : ShortIDCache) : Prop where
  ids_bounded : ∀ p ∈ c.labels2ShortIds, ∃ n, 1 ≤ n ∧ n ≤ c.lastShortID ∧ p.2 = formatInt36 n
  inj : ∀ p ∈ c.labels2ShortIds, ∀ q ∈ c.labels2ShortIds, p.2 = q.2 → p.1 = q.1
  has_info : ∀ p ∈ c.labels2ShortIds, (assocLookup c.shortIds2Infos p.2).isSome

deriving instance DecidableEq for Except

/-- A concrete metric identity used by the witnesses. -/
def lab0 : Labels := { Transform := ("t1"), Namespace := ("ns"), Name := ("n") }

/-- The cache state after resolving `(lab0, urnUserSumInt64)` on a fresh
cache. -/
def cacheA : ShortIDCache :=
  { labels2ShortIds := [((lab0, urnUserSumInt64), ("1"))],
    shortIds2Infos := [(("1"),
      { urn := ("beam:metric:user:sum_int64:v1"), type := ("beam:metrics:sum_int64:v1"),
        labels := [(("PTRANSFORM"), ("t1")), (("NAMESPACE"), ("ns")), (("NAME"), ("n"))],
        payload := [] })],
    lastShortID := 1 }

/-- The cache state after additionally resolving
`(lab0, urnUserDistInt64)` on `cacheA`. -/
def cacheB : ShortIDCache :=
  { labels2ShortIds := [((lab0, urnUserSumInt64), ("1")), ((lab0, urnUserDistInt64), ("2"))],
    shortIds2Infos :=
      [(("1"),
        { urn := ("beam:metric:user:sum_int64:v1"), type := ("beam:metrics:sum_int64:v1"),
          labels := [(("PTRANSFORM"), ("t1")), (("NAMESPACE"), ("ns")), (("NAME"), ("n"))],
          payload := [] }),
       (("2"),
        { urn := ("beam:metric:user:distribution_int64:v1"),
          type := ("beam:metrics:distribution_int64:v1"),
          labels := [(("PTRANSFORM"), ("t1")), (("NAMESPACE"), ("ns")), (("NAME"), ("n"))],
          payload := [] })],
    lastShortID := 2 }


/-! ## Legacy metrics protos (`fnpb.Metrics`) -/

/-- `fnpb.Metrics_User_MetricName`. -/
structure Metrics_User_MetricName where
  Name : String
  Namespace : String

deriving DecidableEq

/-- The one-of `Data` field of `fnpb.Metrics_User`.  The gauge timestamp
is its epoch-millisecond value. -/
inductive Metrics_User_Data where
  | CounterData (value : Int)
  | DistributionData (count sum min max : Int)
  | GaugeData (value : Int) (timestampMillis : Int)

deriving DecidableEq

/-- `fnpb.Metrics_User`. -/
structure Metrics_User where
  MetricName : Metrics_User_MetricName
  Data : Metrics_User_Data

deriving DecidableEq

/-- `fnpb.Metrics_PTransform`: the user metric entries plus the
`ProcessedElements.Measured.OutputElementCounts` map, flattened to the
fields the source writes. -/
structure Metrics_PTransform where
  User : List Metrics_User := []
  ProcessedElements : Option (List (String × Int)) := none

deriving DecidableEq

/-- `fnpb.Metrics`: the per-transform legacy tree. -/
structure Metrics where
  Ptransforms : List (String × Metrics_PTransform) := []

deriving DecidableEq

/-- `toName` from the source. -/
def toName (l : Labels) : Metrics_User_MetricName :=
  { Name := l.Name, Namespace := l.Namespace }

/-- `getTransform` from the source: the transform's current entry, or a
fresh empty one.  The Go function also stores the fresh entry; the
callers below model that by writing the updated entry back. -/
def getTransform (transforms : List (String × Metrics_PTransform)) (l : Labels) :
    Metrics_PTransform :=
  (assocLookup transforms l.Transform).getD {}

/-- Modelled from the spec: `ptypes.TimestampProto` converts a timestamp;
internally-produced timestamps are always representable, so the
conversion succeeds on them. -/
def TimestampProto (tMillis : Int) : Except String Int :=
  Except.ok tMillis


/-! ## The metric store and plan (external collaborators)

`metrics.Store`, `metrics.Extractor` and `exec.Plan` live outside the
provided source tree. -/

/-- Modelled from the spec: the metric store is an opaque external object
offering visitor-style extraction over registered callback kinds
(`SumInt64`, `DistributionInt64`, `GaugeInt64`); it is modelled as the
lists of values it reports, each with its labels, in extraction order.
Gauge values carry their timestamp as epoch milliseconds. -/
structure MetricsStore where
  sumInt64s : List (Labels × Int) := []
  distInt64s : List (Labels × (Int × Int × Int × Int)) := []
  gaugeInt64s : List (Labels × (Int × Int)) := []

deriving DecidableEq

/-- Modelled from the spec: `exec.ProgressReportSnapshot`, the execution
engine's progress snapshot, with the four fields the source reads:
the active transform id `ID`, its display name `Name`, the measured
data-collection id `PID`, and the element count `Count`. -/
structure ProgressReportSnapshot where
  ID : String
  Name : String
  PID : String
  Count : Int

deriving DecidableEq

/-- Modelled from the spec: the slice of `exec.Plan` that `monitoring`
reads — an optional store and an optional progress snapshot. -/
structure Plan where
  store : Option MetricsStore := none
  progress : Option ProgressReportSnapshot := none


/-! ## Snapshot builder (`monitoring`) -/

/-- Legacy pass, sum metrics: append a counter entry under the metric's
transform. -/
def legacySums (transforms : List (String × Metrics_PTransform)) :
    List (Labels × Int) → List (String × Metrics_PTransform)
  | [] => transforms
  | (l, v) :: rest =>
    let pb := getTransform transforms l
    legacySums
      (assocInsert transforms l.Transform
        { pb with User := pb.User ++ [{ MetricName := toName l, Data := Metrics_User_Data.CounterData v }] })
      rest

/-- Legacy pass, distribution metrics. -/
def legacyDists (transforms : List (String × Metrics_PTransform)) :
    List (Labels × (Int × Int × Int × Int)) → List (String × Metrics_PTransform)
  | [] => transforms
  | (l, (count, sum, min, max)) :: rest =>
    let pb := getTransform transforms l
    legacyDists
      (assocInsert transforms l.Transform
        { pb with User := pb.User ++ [{ MetricName := toName l, Data := Metrics_User_Data.DistributionData count sum min max }] })
      rest

/-- Legacy pass, gauge metrics: the timestamp conversion runs first and a
conversion failure panics. -/
def legacyGauges (transforms : List (String × Metrics_PTransform)) :
    List (Labels × (Int × Int)) → Except String (List (String × Metrics_PTransform))
  | [] => Except.ok transforms
  | (l, (v, tMillis)) :: rest =>
    match TimestampProto tMillis with
    | Except.error e => Except.error e
    | Except.ok ts =>
      let pb := getTransform transforms l
      legacyGauges
        (assocInsert transforms l.Transform
          { pb with User := pb.User ++ [{ MetricName := toName l, Data := Metrics_User_Data.GaugeData v ts }] })
        rest

/-- The whole legacy extraction pass over the store. -/
def legacyPass (store : MetricsStore) : Except String (List (String × Metrics_PTransform)) :=
  legacyGauges (legacyDists (legacySums [] store.sumInt64s) store.distInt64s) store.gaugeInt64s

/-- State threaded through the MonitoringInfo pass: the short-id cache,
the metadata-record list, and the payload-by-short-id map. -/
abbrev InfoState := ShortIDCache × List MonitoringInfo × List (String × List Nat)

/-- MonitoringInfo pass, sum metrics: encode the payload (an encoding
error panics), resolve the short id, record the payload under it, and
append a fully populated metadata record. -/
def infoSums (st : InfoState) : List (Labels × Int) → Except String InfoState
  | [] => Except.ok st
  | (l, v) :: rest =>
    match int64Counter v with
    | Except.error e => Except.error e
    | Except.ok payload =>
      match st.1.getShortID l urnUserSumInt64 with
      | Except.error e => Except.error e
      | Except.ok (s, cache) =>
        infoSums
          (cache,
           st.2.1 ++ [{ urn := sUrns.getD urnUserSumInt64 (""), type := sTypes.getD typeSumInt64 (""),
                        labels := userLabels l, payload := payload }],
           assocInsert st.2.2 s payload)
          rest

/-- MonitoringInfo pass, distribution metrics. -/
def infoDists (st : InfoState) :
    List (Labels × (Int × Int × Int × Int)) → Except String InfoState
  | [] => Except.ok st
  | (l, (count, sum, min, max)) :: rest =>
    match int64Distribution count sum min max with
    | Except.error e => Except.error e
    | Except.ok payload =>
      match st.1.getShortID l urnUserDistInt64 with
      | Except.error e => Except.error e
      | Except.ok (s, cache) =>
        infoDists
          (cache,
           st.2.1 ++ [{ urn := sUrns.getD urnUserDistInt64 (""), type := sTypes.getD typeDistInt64 (""),
                        labels := userLabels l, payload := payload }],
           assocInsert st.2.2 s payload)
          rest

/-- MonitoringInfo pass, gauge metrics. -/
def infoGauges (st : InfoState) : List (Labels × (Int × Int)) → Except String InfoState
  | [] => Except.ok st
  | (l, (v, tMillis)) :: rest =>
    match int64Latest tMillis v with
    | Except.error e => Except.error e
    | Except.ok payload =>
      match st.1.getShortID l urnUserLatestMsInt64 with
      | Except.error e => Except.error e
      | Except.ok (s, cache) =>
        infoGauges
          (cache,
           st.2.1 ++ [{ urn := sUrns.getD urnUserLatestMsInt64 (""), type := sTypes.getD typeLatestMsInt64 (""),
                        labels := userLabels l, payload := payload }],
           assocInsert st.2.2 s payload)
          rest

/-- The whole MonitoringInfo extraction pass over the store. -/
def infoPass (cache : ShortIDCache) (store : MetricsStore) : Except String InfoState :=
  match infoSums (cache, [], []) store.sumInt64s with
  | Except.error e => Except.error e
  | Except.ok st1 =>
    match infoDists st1 store.distInt64s with
    | Except.error e => Except.error e
    | Except.ok st2 => infoGauges st2 store.gaugeInt64s

/-- `monitoring` from the source.  The default short-id cache is passed
explicitly; the result carries the final cache followed by the three
results of the Go function: the legacy tree (`nil` pointer modelled as
`none`), the metadata-record list, and the payload-by-short-id map. -/
def monitoring (cache : ShortIDCache) (p : Plan) :
    Except String (ShortIDCache × Option Metrics × List MonitoringInfo × List (String × List Nat)) :=
  match p.store with
  | none => Except.ok (cache, none, [], [])
  | some store =>
    match legacyPass store with
    | Except.error e => Except.error e
    | Except.ok transforms =>
      match infoPass cache store with
      | Except.error e => Except.error e
      | Except.ok (cache2, monitoringInfo, payloads) =>
        match p.progress with
        | none => Except.ok (cache2, some { Ptransforms := transforms }, monitoringInfo, payloads)
        | some snapshot =>
          let transforms2 :=
            assocInsert transforms snapshot.ID
              { User := [], ProcessedElements := some [(snapshot.Name, snapshot.Count)] }
          match int64Counter snapshot.Count with
          | Except.ok payload =>
            Except.ok (cache2, some { Ptransforms := transforms2 },
              monitoringInfo ++
                [{ urn := sUrns.getD urnElementCount (""), type := sTypes.getD typeSumInt64 (""),
                   labels := [(("PCOLLECTION"), snapshot.PID)], payload := payload }],
              payloads)
          | Except.error _ =>
            Except.ok (cache2, some { Ptransforms := transforms2 }, monitoringInfo, payloads)

instance : DecidableEq (Option Metrics × List MonitoringInfo × List (String × List Nat)) :=
  instDecidableEqProd

instance : DecidableEq (ShortIDCache × Option Metrics × List MonitoringInfo × List (String × List Nat)) :=
  instDecidableEqProd

/-- The store of C4's scenario: one user sum-int64 metric named `n`, in
namespace `ns`, on transform `t1`, with value 7. -/
def store4 : MetricsStore := { sumInt64s := [(lab0, 7)] }

/-- The metadata record C4 expects `monitoring` to emit. -/
def info4 : MonitoringInfo :=
  { urn := ("beam:metric:user:sum_int64:v1"), type := ("beam:metrics:sum_int64:v1"),
    labels := [(("PTRANSFORM"), ("t1")), (("NAMESPACE"), ("ns")), (("NAME"), ("n"))],
    payload := [7] }

/-- The legacy tree C4's scenario produces. -/
def metrics4 : Metrics :=
  { Ptransforms := [(("t1"),
      { User := [{ MetricName := { Name := ("n"), Namespace := ("ns") },
                   Data := Metrics_User_Data.CounterData 7 }],
        ProcessedElements := none })] }

/-- Every key of the payload map has a stored metadata descriptor in the
cache. -/
def PayloadsDescribed (cache : ShortIDCache) (payloads : List (String × List Nat)) : Prop :=
  ∀ q ∈ payloads, (assocLookup cache.shortIds2Infos q.1).isSome

/-- The progress snapshot of C8's scenario. -/
def snap8 : ProgressReportSnapshot :=
  { ID := ("pc1"), Name := ("pc1"), PID := ("pc1"), Count := 42 }

/-- A metric identity recorded on the transform the snapshot targets. -/
def lab8 : Labels := { Transform := ("pc1"), Namespace := ("ns"), Name := ("n") }

/-- A store with one user sum-int64 metric on transform `pc1`. -/
def store8 : MetricsStore := { sumInt64s := [(lab8, 7)] }

theorem assocLookup_assocInsert_self {α β : Type} [DecidableEq α]
    (m : List (α × β)) (k : α) (v : β) :
    assocLookup (assocInsert m k v) k = some v := by
  induction m with
  | nil => simp [assocInsert, assocLookup]
  | cons p rest ih =>
    obtain ⟨k0, v0⟩ := p
    by_cases hk : k0 = k
    · simp [assocInsert, assocLookup, hk]
    · simp [assocInsert, assocLookup, hk, ih]

theorem assocLookup_assocInsert_of_ne {α β : Type} [DecidableEq α]
    (m : List (α × β)) (k : α) (v : β) (t : α) (ht : k ≠ t) :
    assocLookup (assocInsert m k v) t = assocLookup m t := by
  induction m with
  | nil => simp [assocInsert, assocLookup, ht]
  | cons p rest ih =>
    obtain ⟨k0, v0⟩ := p
    by_cases hk : k0 = k
    · subst hk
      simp [assocInsert, assocLookup, ht]
    · simp [assocInsert, assocLookup, hk, ih]

theorem mem_assocInsert {α β : Type} [DecidableEq α]
    {m : List (α × β)} {k : α} {v : β} {p : α × β} (hp : p ∈ assocInsert m k v) :
    p ∈ m ∨ p = (k, v) := by
  induction m with
  | nil => simpa [assocInsert] using hp
  | cons q rest ih =>
    obtain ⟨k0, v0⟩ := q
    by_cases hk : k0 = k
    · simp only [assocInsert, if_pos hk, List.mem_cons] at hp
      rcases hp with h | h
      · right; exact h
      · left; exact List.mem_cons_of_mem _ h
    · simp only [assocInsert, if_neg hk, List.mem_cons] at hp
      rcases hp with h | h
      · left; exact h ▸ List.mem_cons_self _ _
      · rcases ih h with h2 | h2
        · left; exact List.mem_cons_of_mem _ h2
        · right; exact h2

theorem assocLookup_isSome_assocInsert {α β : Type} [DecidableEq α]
    (m : List (α × β)) (k : α) (v : β) (t : α)
    (h : (assocLookup m t).isSome) :
    (assocLookup (assocInsert m k v) t).isSome := by
  by_cases hk : k = t
  · subst hk
    simp [assocLookup_assocInsert_self]
  · rwa [assocLookup_assocInsert_of_ne _ _ _ _ hk]

theorem assocLookup_mem {α β : Type} [DecidableEq α]
    {m : List (α × β)} {k : α} {v : β} (h : assocLookup m k = some v) :
    (k, v) ∈ m := by
  induction m with
  | nil => simp [assocLookup] at h
  | cons p rest ih =>
    obtain ⟨k0, v0⟩ := p
    simp only [assocLookup] at h
    by_cases hk : k0 = k
    · rw [if_pos hk] at h
      injection h with hv
      subst hk
      subst hv
      exact List.mem_cons_self _ _
    · rw [if_neg hk] at h
      exact List.mem_cons_of_mem _ (ih h)

theorem val36_digits36Aux : ∀ fuel n, n < 36 ^ fuel → val36 (digits36Aux fuel n) = n := by
  intro fuel
  induction fuel with
  | zero =>
    intro n h
    simp only [pow_zero, Nat.lt_one_iff] at h
    subst h
    simp [digits36Aux, val36]
  | succ fuel ih =>
    intro n h
    by_cases h0 : n = 0
    · subst h0
      simp [digits36Aux, val36]
    · rw [digits36Aux, if_neg h0]
      have hdiv : n / 36 < 36 ^ fuel := by
        rw [Nat.div_lt_iff_lt_mul (by norm_num)]
        calc n < 36 ^ (fuel + 1) := h
          _ = 36 ^ fuel * 36 := by ring
      rw [val36, ih (n / 36) hdiv]
      omega

theorem digits36Aux_lt : ∀ fuel n d, d ∈ digits36Aux fuel n → d < 36 := by
  intro fuel
  induction fuel with
  | zero => intro n d hd; simp [digits36Aux] at hd
  | succ fuel ih =>
    intro n d hd
    by_cases h0 : n = 0
    · subst h0; simp [digits36Aux] at hd
    · rw [digits36Aux, if_neg h0] at hd
      rcases List.mem_cons.mp hd with h | h
      · subst h; exact Nat.mod_lt _ (by norm_num)
      · exact ih _ _ h

theorem digitChar36_inj :
    ∀ d1 : Fin 36, ∀ d2 : Fin 36, digitChar36 d1 = digitChar36 d2 → d1 = d2 := by
  decide

theorem map_digitChar36_inj : ∀ (l1 l2 : List Nat),
    (∀ d ∈ l1, d < 36) → (∀ d ∈ l2, d < 36) →
    l1.map digitChar36 = l2.map digitChar36 → l1 = l2 := by
  intro l1
  induction l1 with
  | nil =>
    intro l2 _ _ h
    cases l2 with
    | nil => rfl
    | cons d ds => simp at h
  | cons d1 ds1 ih =>
    intro l2 hb1 hb2 h
    cases l2 with
    | nil => simp at h
    | cons d2 ds2 =>
      simp only [List.map_cons, List.cons.injEq] at h
      have hd1 : d1 < 36 := hb1 d1 (List.mem_cons_self _ _)
      have hd2 : d2 < 36 := hb2 d2 (List.mem_cons_self _ _)
      have heq : (⟨d1, hd1⟩ : Fin 36) = ⟨d2, hd2⟩ :=
        digitChar36_inj ⟨d1, hd1⟩ ⟨d2, hd2⟩ h.1
      have hd : d1 = d2 := by simpa using congrArg Fin.val heq
      have hds : ds1 = ds2 :=
        ih ds2 (fun d hd => hb1 d (List.mem_cons_of_mem _ hd))
          (fun d hd => hb2 d (List.mem_cons_of_mem _ hd)) h.2
      rw [hd, hds]

theorem formatInt36_inj {m n : Nat} (hm : 1 ≤ m) (hn : 1 ≤ n)
    (h : formatInt36 m = formatInt36 n) : m = n := by
  unfold formatInt36 at h
  rw [if_neg (by omega), if_neg (by omega)] at h
  have hdata := congrArg String.data h
  simp only [String.data] at hdata
  have hrev : (digits36Aux m m).reverse = (digits36Aux n n).reverse :=
    map_digitChar36_inj _ _
      (fun d hd => digits36Aux_lt m m d (List.mem_reverse.mp hd))
      (fun d hd => digits36Aux_lt n n d (List.mem_reverse.mp hd)) hdata
  have hdig : digits36Aux m m = digits36Aux n n := List.reverse_injective hrev
  have hmval : val36 (digits36Aux m m) = m :=
    val36_digits36Aux m m (Nat.lt_pow_self (by norm_num) m)
  have hnval : val36 (digits36Aux n n) = n :=
    val36_digits36Aux n n (Nat.lt_pow_self (by norm_num) n)
  rw [← hmval, ← hnval, hdig]

theorem newShortIDCache_wf : CacheWF newShortIDCache := by
  constructor <;> intro p hp <;> simp [newShortIDCache] at hp

/-- Case analysis of `getShortID`: either the identity was already mapped
and the cache is returned untouched, or a fresh short id — the base-36
rendering of the incremented counter — is recorded in both maps. -/
theorem ShortIDCache.getShortID_spec {c : ShortIDCache} {l : Labels} {u : Nat}
    {s : String} {c' : ShortIDCache}
    (h : c.getShortID l u = Except.ok (s, c')) :
    (assocLookup c.labels2ShortIds (l, u) = some s ∧ c' = c) ∨
    (assocLookup c.labels2ShortIds (l, u) = none ∧
     s = formatInt36 (c.lastShortID + 1) ∧
     c'.labels2ShortIds = assocInsert c.labels2ShortIds (l, u) s ∧
     (∀ t, (assocLookup c.shortIds2Infos t).isSome →
       (assocLookup c'.shortIds2Infos t).isSome) ∧
     (assocLookup c'.shortIds2Infos s).isSome ∧
     c'.lastShortID = c.lastShortID + 1) := by
  unfold ShortIDCache.getShortID at h
  cases hl : assocLookup c.labels2ShortIds (l, u) with
  | some s0 =>
    simp only [hl, Except.ok.injEq, Prod.mk.injEq] at h
    obtain ⟨rfl, rfl⟩ := h
    left
    exact ⟨rfl, rfl⟩
  | none =>
    simp only [hl] at h
    cases ht : urnToType u with
    | none => simp [ht] at h
    | some t =>
      simp only [ht, Except.ok.injEq, Prod.mk.injEq] at h
      obtain ⟨rfl, rfl⟩ := h
      right
      refine ⟨rfl, rfl, rfl, ?_, ?_, rfl⟩
      · intro t2 ht2
        exact assocLookup_isSome_assocInsert _ _ _ _ ht2
      · simp [ShortIDCache.getNextShortID, assocLookup_assocInsert_self]

theorem ShortIDCache.getShortID_ok_lookup {c : ShortIDCache} {l : Labels} {u : Nat}
    {s : String} {c' : ShortIDCache}
    (h : c.getShortID l u = Except.ok (s, c')) :
    assocLookup c'.labels2ShortIds (l, u) = some s := by
  rcases ShortIDCache.getShortID_spec h with ⟨hl, rfl⟩ | ⟨hl, hs, hlab, _, _, _⟩
  · exact hl
  · rw [hlab]
    exact assocLookup_assocInsert_self _ _ _

theorem ShortIDCache.getShortID_ok_mem {c : ShortIDCache} {l : Labels} {u : Nat}
    {s : String} {c' : ShortIDCache}
    (h : c.getShortID l u = Except.ok (s, c')) :
    ((l, u), s) ∈ c'.labels2ShortIds :=
  assocLookup_mem (ShortIDCache.getShortID_ok_lookup h)

/-- Fresh short ids differ from every short id already in a well-formed
cache: the counter value is new, and base-36 rendering is injective. -/
theorem CacheWF.fresh {c : ShortIDCache} (hwf : CacheWF c)
    {p : ShortKey × String} (hp : p ∈ c.labels2ShortIds) :
    p.2 ≠ formatInt36 (c.lastShortID + 1) := by
  intro heq
  obtain ⟨n, hn1, hn2, hn3⟩ := hwf.ids_bounded p hp
  rw [hn3] at heq
  have := formatInt36_inj hn1 (by omega) heq
  omega

theorem ShortIDCache.getShortID_wf {c : ShortIDCache} {l : Labels} {u : Nat}
    {s : String} {c' : ShortIDCache} (hwf : CacheWF c)
    (h : c.getShortID l u = Except.ok (s, c')) : CacheWF c' := by
  rcases ShortIDCache.getShortID_spec h with ⟨hl, rfl⟩ | ⟨hl, hs, hlab, hmono, hsinfo, hlast⟩
  · exact hwf
  · constructor
    · intro p hp
      rw [hlab] at hp
      rcases mem_assocInsert hp with hold | hnew
      · obtain ⟨n, h1, h2, h3⟩ := hwf.ids_bounded p hold
        exact ⟨n, h1, by omega, h3⟩
      · refine ⟨c.lastShortID + 1, by omega, by omega, ?_⟩
        rw [hnew, ← hs]
    · intro p hp q hq hpq
      rw [hlab] at hp hq
      rcases mem_assocInsert hp with hp1 | hp1 <;> rcases mem_assocInsert hq with hq1 | hq1
      · exact hwf.inj p hp1 q hq1 hpq
      · exfalso
        refine hwf.fresh hp1 ?_
        rw [hpq, hq1, ← hs]
      · exfalso
        refine hwf.fresh hq1 ?_
        rw [← hpq, hp1, ← hs]
      · rw [hp1, hq1]
    · intro p hp
      rw [hlab] at hp
      rcases mem_assocInsert hp with hold | hnew
      · exact hmono p.2 (hwf.has_info p hold)
      · rw [hnew]
        exact hsinfo

theorem ShortIDCache.getShortID_has_info {c : ShortIDCache} {l : Labels} {u : Nat}
    {s : String} {c' : ShortIDCache} (hwf : CacheWF c)
    (h : c.getShortID l u = Except.ok (s, c')) :
    (assocLookup c'.shortIds2Infos s).isSome :=
  (ShortIDCache.getShortID_wf hwf h).has_info _ (ShortIDCache.getShortID_ok_mem h)

theorem ShortIDCache.getShortID_info_mono {c : ShortIDCache} {l : Labels} {u : Nat}
    {s : String} {c' : ShortIDCache}
    (h : c.getShortID l u = Except.ok (s, c')) (t : String)
    (ht : (assocLookup c.shortIds2Infos t).isSome) :
    (assocLookup c'.shortIds2Infos t).isSome := by
  rcases ShortIDCache.getShortID_spec h with ⟨_, rfl⟩ | ⟨_, _, _, hmono, _, _⟩
  · exact ht
  · exact hmono t ht

/-- C1: resolving the same metric identity twice with `getShortID` yields
the same short-id token both times, and the second call leaves the cache —
in particular its identity-to-short-id mapping — unchanged: it returns
exactly the token and cache produced by the first call. -/
theorem getShortID_idempotent (c : ShortIDCache) (l : Labels) (u : Nat)
    (s : String) (c1 : ShortIDCache)
    (h : c.getShortID l u = Except.ok (s, c1)) :
    c1.getShortID l u = Except.ok (s, c1) := by
  have hl := ShortIDCache.getShortID_ok_lookup h
  unfold ShortIDCache.getShortID
  rw [hl]

theorem getShortID_idempotent_witness :
    cacheA.getShortID lab0 urnUserSumInt64 = Except.ok ((("1") : String), cacheA) :=
  getShortID_idempotent newShortIDCache lab0 urnUserSumInt64 ("1") cacheA (by decide)

/-- C2: on a well-formed cache, resolving two identities that differ in at
least one of transform, namespace, name, or urn yields distinct short-id
tokens, and well-formedness — whose `inj` field is exactly injectivity of
the identity-to-short-id map — holds for the initial cache and is
preserved by every `getShortID` call, so the map stays injective under
every sequence of calls. -/
theorem getShortID_injective (c : ShortIDCache) (hwf : CacheWF c)
    (l1 l2 : Labels) (u1 u2 : Nat) (hne : (l1, u1) ≠ (l2, u2))
    (s1 s2 : String) (c1 c2 : ShortIDCache)
    (h1 : c.getShortID l1 u1 = Except.ok (s1, c1))
    (h2 : c1.getShortID l2 u2 = Except.ok (s2, c2)) :
    s1 ≠ s2 ∧ CacheWF c1 ∧ CacheWF c2 ∧ CacheWF newShortIDCache := by
  have hwf1 := ShortIDCache.getShortID_wf hwf h1
  have hwf2 := ShortIDCache.getShortID_wf hwf1 h2
  have hmem1 := ShortIDCache.getShortID_ok_mem h1
  refine ⟨?_, hwf1, hwf2, newShortIDCache_wf⟩
  intro heq
  rcases ShortIDCache.getShortID_spec h2 with ⟨hl, _⟩ | ⟨_, hs, _, _, _, _⟩
  · have hmem2 := assocLookup_mem hl
    exact hne (hwf1.inj ((l1, u1), s1) hmem1 ((l2, u2), s2) hmem2 heq)
  · exact hwf1.fresh hmem1 (heq ▸ hs ▸ rfl)

theorem getShortID_injective_witness :
    (("1") : String) ≠ ("2") ∧ CacheWF cacheA ∧ CacheWF cacheB ∧ CacheWF newShortIDCache :=
  getShortID_injective newShortIDCache newShortIDCache_wf lab0 lab0
    urnUserSumInt64 urnUserDistInt64 (by decide) ("1") ("2") cacheA cacheB
    (by decide) (by decide)

/-- C3: each payload encoder returns exactly the concatenation of the
base-128 varints of its fields in the documented fixed order:
`int64Distribution count sum min max` is
`varint count ++ varint sum ++ varint min ++ varint max` for all inputs —
in particular at `(3, 30, 5, 15)` — and `int64Latest` is the varint of
the timestamp's epoch milliseconds followed by the varint of the value. -/
theorem encoders_concat_varints (count sum min max tMillis v : Int) :
    int64Distribution count sum min max =
      Except.ok (encodeVarInt count ++ encodeVarInt sum ++ encodeVarInt min ++ encodeVarInt max) ∧
    int64Latest tMillis v = Except.ok (encodeVarInt tMillis ++ encodeVarInt v) ∧
    int64Distribution 3 30 5 15 =
      Except.ok (encodeVarInt 3 ++ encodeVarInt 30 ++ encodeVarInt 5 ++ encodeVarInt 15) ∧
    int64Distribution 3 30 5 15 = Except.ok [3, 30, 5, 15] := by
  refine ⟨?_, ?_, ?_, by decide⟩ <;>
    simp [int64Distribution, int64Latest, encodeVarIntBuf]

/-- C10: `int64Counter` and `int64Distribution` write varints into an
in-memory buffer whose writes cannot fail, so they return `ok` (a nil
error) for every input; the `panic(err)` branches guarded by their errors
are therefore unreachable. -/
theorem int64_encoders_never_fail (v count sum min max : Int) :
    (∃ b, int64Counter v = Except.ok b) ∧
    (∃ b, int64Distribution count sum min max = Except.ok b) :=
  ⟨⟨_, rfl⟩, ⟨_, rfl⟩⟩

set_option maxHeartbeats 1000000 in
/-- The `urnToType` switch returns a wire type for every urn index below
`sUrns.length` and reaches the `default` branch for every index at or
above it. -/
theorem urnToType_switch_total :
    (∀ u, u < sUrns.length → (urnToType u).isSome) ∧
    (∀ u, sUrns.length ≤ u → urnToType u = none) := by
  constructor
  · intro u hu
    have hlen : sUrns.length = 19 := rfl
    rw [hlen] at hu
    have hall : ∀ x ∈ List.range 19, (urnToType x).isSome := by decide
    exact hall u (List.mem_range.mpr hu)
  · intro u hu
    have hlen : sUrns.length = 19 := rfl
    rw [hlen] at hu
    unfold urnToType
    simp only [urnUserSumInt64, urnUserSumFloat64, urnUserDistInt64, urnUserDistFloat64,
      urnUserLatestMsInt64, urnUserLatestMsFloat64, urnUserTopNInt64, urnUserTopNFloat64,
      urnUserBottomNInt64, urnUserBottomNFloat64, urnElementCount, urnSampledByteSize,
      urnStartBundle, urnProcessBundle, urnFinishBundle, urnTransformTotalTime,
      urnProgressRemaining, urnProgressCompleted, urnTestSentinel]
    repeat' split
    any_goals rfl
    all_goals omega

set_option maxRecDepth 4000 in
/-- C5 counterexample: at urn index 19, the first input outside the
supported set, the call does fail fatally, but with the
index-out-of-range runtime error raised by the panic message's own
`sUrns[u]` indexing — not with the protocol-violation message: the
33-character protocol-violation text is not the start of the error
produced, and the error names no URN, so the failure does not identify
the offending URN as the claim states. -/
theorem urnToType_panic_counterexample :
    urnToTypeE 19 = Except.error ("runtime error: index out of range") ∧
    ("metric urn without specified type").length = 33 ∧
    ("runtime error: index out of range").data.take 33 ≠
      ("metric urn without specified type").data := by
  decide

/-- C5 (amended): `urnToType` is total over the closed set of supported
metric-kind URNs, returning exactly one wire-type identifier for each
supported urn index; for any input outside that set it fails fatally
(panics) instead of returning a value, but the panic it fails with is
the index-out-of-range runtime error raised by the panic message's own
`sUrns[u]` indexing — the protocol-violation error identifying the
offending URN is never produced, because every input that reaches the
`default` branch lies outside the range of `sUrns`. -/
theorem urnToType_total_amended :
    (∀ u, u < sUrns.length → ∃ t, urnToTypeE u = Except.ok t) ∧
    (∀ u, sUrns.length ≤ u →
      urnToTypeE u = Except.error ("runtime error: index out of range")) := by
  constructor
  · intro u hu
    obtain ⟨t, ht⟩ := Option.isSome_iff_exists.mp (urnToType_switch_total.1 u hu)
    exact ⟨t, by simp [urnToTypeE, ht]⟩
  · intro u hu
    have h1 : urnToType u = none := urnToType_switch_total.2 u hu
    have h2 : sUrns[u]? = none := List.getElem?_eq_none hu
    simp [urnToTypeE, h1, h2]

theorem urnToType_total_amended_witness :
    (∃ t, urnToTypeE 8 = Except.ok t) ∧
    urnToTypeE 19 = Except.error ("runtime error: index out of range") :=
  ⟨urnToType_total_amended.1 8 (by decide), urnToType_total_amended.2 19 (by decide)⟩

/-- C6: contrary to the claim, the source maps the user bottom-N int64
urn to the sum-int64 wire type, not to the bottom-N int64 wire type: the
`urnUserBottomNInt64` case of the switch returns `typeSumInt64`, a
distinct identifier from `typeBottomNInt64` (which no case returns). -/
theorem urnToType_bottomN_int64 :
    urnToType urnUserBottomNInt64 = some typeSumInt64 ∧
    typeSumInt64 ≠ typeBottomNInt64 ∧
    sTypes.getD typeSumInt64 ("") = ("beam:metrics:sum_int64:v1") ∧
    sTypes.getD typeBottomNInt64 ("") = ("beam:metrics:bottom_n_int64:v1") := by
  decide

/-- C7: with no metric store attached, `monitoring` returns `nil` for all
three results and no error; with a present but empty store (and no
progress snapshot) it returns all-empty results — an empty legacy tree,
an empty metadata list and an empty payload map — again without error. -/
theorem monitoring_empty_store (cache : ShortIDCache) :
    monitoring cache { store := none, progress := none } = Except.ok (cache, none, [], []) ∧
    monitoring cache { store := some {}, progress := none } =
      Except.ok (cache, some { Ptransforms := [] }, [], []) :=
  ⟨rfl, rfl⟩

/-- C4: on a store holding one user sum-int64 metric `ns.n = 7` on
transform `t1`, `monitoring` returns a metadata-record list containing
exactly the record with the user sum-int64 urn and labels
`PTRANSFORM = t1`, `NAMESPACE = ns`, `NAME = n`, and the payload map
sends that identity's short id (`1`) to `int64Counter 7 = [7]`. -/
theorem monitoring_user_sum_int64 :
    monitoring newShortIDCache { store := some store4, progress := none } =
      Except.ok (cacheA, some metrics4, [info4], [((("1") : String), [7])]) ∧
    info4.urn = ("beam:metric:user:sum_int64:v1") ∧
    info4.labels = [(("PTRANSFORM"), ("t1")), (("NAMESPACE"), ("ns")), (("NAME"), ("n"))] ∧
    assocLookup cacheA.labels2ShortIds (lab0, urnUserSumInt64) = some ("1") ∧
    int64Counter 7 = Except.ok [7] := by
  decide

theorem infoSums_inv : ∀ (xs : List (Labels × Int)) (st st' : InfoState),
    CacheWF st.1 → PayloadsDescribed st.1 st.2.2 →
    infoSums st xs = Except.ok st' →
    CacheWF st'.1 ∧ PayloadsDescribed st'.1 st'.2.2 := by
  intro xs
  induction xs with
  | nil =>
    intro st st' hwf hpd h
    simp only [infoSums, Except.ok.injEq] at h
    subst h
    exact ⟨hwf, hpd⟩
  | cons x rest ih =>
    intro st st' hwf hpd h
    obtain ⟨l, v⟩ := x
    obtain ⟨c0, i0, p0⟩ := st
    simp only [infoSums, int64Counter, encodeVarIntBuf, List.nil_append] at h
    cases hg : ShortIDCache.getShortID c0 l urnUserSumInt64 with
    | error e =>
      simp only [hg] at h
      exact Except.noConfusion h
    | ok pr =>
      obtain ⟨s, c1⟩ := pr
      simp only [hg] at h
      refine ih _ st' (ShortIDCache.getShortID_wf hwf hg) ?_ h
      intro q hq
      rcases mem_assocInsert hq with hold | hnew
      · exact ShortIDCache.getShortID_info_mono hg q.1 (hpd q hold)
      · rw [hnew]
        exact ShortIDCache.getShortID_has_info hwf hg

theorem infoDists_inv : ∀ (xs : List (Labels × (Int × Int × Int × Int))) (st st' : InfoState),
    CacheWF st.1 → PayloadsDescribed st.1 st.2.2 →
    infoDists st xs = Except.ok st' →
    CacheWF st'.1 ∧ PayloadsDescribed st'.1 st'.2.2 := by
  intro xs
  induction xs with
  | nil =>
    intro st st' hwf hpd h
    simp only [infoDists, Except.ok.injEq] at h
    subst h
    exact ⟨hwf, hpd⟩
  | cons x rest ih =>
    intro st st' hwf hpd h
    obtain ⟨l, count, sum, min, max⟩ := x
    obtain ⟨c0, i0, p0⟩ := st
    simp only [infoDists, int64Distribution, encodeVarIntBuf, List.nil_append] at h
    cases hg : ShortIDCache.getShortID c0 l urnUserDistInt64 with
    | error e =>
      simp only [hg] at h
      exact Except.noConfusion h
    | ok pr =>
      obtain ⟨s, c1⟩ := pr
      simp only [hg] at h
      refine ih _ st' (ShortIDCache.getShortID_wf hwf hg) ?_ h
      intro q hq
      rcases mem_assocInsert hq with hold | hnew
      · exact ShortIDCache.getShortID_info_mono hg q.1 (hpd q hold)
      · rw [hnew]
        exact ShortIDCache.getShortID_has_info hwf hg

theorem infoGauges_inv : ∀ (xs : List (Labels × (Int × Int))) (st st' : InfoState),
    CacheWF st.1 → PayloadsDescribed st.1 st.2.2 →
    infoGauges st xs = Except.ok st' →
    CacheWF st'.1 ∧ PayloadsDescribed st'.1 st'.2.2 := by
  intro xs
  induction xs with
  | nil =>
    intro st st' hwf hpd h
    simp only [infoGauges, Except.ok.injEq] at h
    subst h
    exact ⟨hwf, hpd⟩
  | cons x rest ih =>
    intro st st' hwf hpd h
    obtain ⟨l, v, tMillis⟩ := x
    obtain ⟨c0, i0, p0⟩ := st
    simp only [infoGauges, int64Latest, encodeVarIntBuf, List.nil_append] at h
    cases hg : ShortIDCache.getShortID c0 l urnUserLatestMsInt64 with
    | error e =>
      simp only [hg] at h
      exact Except.noConfusion h
    | ok pr =>
      obtain ⟨s, c1⟩ := pr
      simp only [hg] at h
      refine ih _ st' (ShortIDCache.getShortID_wf hwf hg) ?_ h
      intro q hq
      rcases mem_assocInsert hq with hold | hnew
      · exact ShortIDCache.getShortID_info_mono hg q.1 (hpd q hold)
      · rw [hnew]
        exact ShortIDCache.getShortID_has_info hwf hg

theorem infoPass_inv {cache : ShortIDCache} {store : MetricsStore} {st : InfoState}
    (hwf : CacheWF cache) (h : infoPass cache store = Except.ok st) :
    CacheWF st.1 ∧ PayloadsDescribed st.1 st.2.2 := by
  unfold infoPass at h
  cases h1 : infoSums (cache, [], []) store.sumInt64s with
  | error e =>
    simp only [h1] at h
    exact Except.noConfusion h
  | ok st1 =>
    simp only [h1] at h
    cases h2 : infoDists st1 store.distInt64s with
    | error e =>
      simp only [h2] at h
      exact Except.noConfusion h
    | ok st2 =>
      simp only [h2] at h
      have hinv1 := infoSums_inv _ _ _ hwf (fun q hq => absurd hq (List.not_mem_nil q)) h1
      have hinv2 := infoDists_inv _ _ _ hinv1.1 hinv1.2 h2
      exact infoGauges_inv _ _ _ hinv2.1 hinv2.2 h

theorem assocLookup_map_self {α β : Type} [DecidableEq α] (f : α → β) :
    ∀ (xs : List α) (s : α), s ∈ xs →
      assocLookup (xs.map (fun t => (t, f t))) s = some (f s) := by
  intro xs
  induction xs with
  | nil => intro s hs; simp at hs
  | cons x rest ih =>
    intro s hs
    by_cases hx : x = s
    · subst hx
      simp [assocLookup]
    · rcases List.mem_cons.mp hs with h | h
      · exact absurd h.symm hx
      · simp only [List.map_cons, assocLookup, if_neg hx]
        exact ih s h

/-- C9: once `monitoring` returns, every short id that keys the returned
payload map has a fully populated metadata descriptor in the cache, so a
subsequent batch lookup via `shortIdsToInfos` on the payload keys maps
each of them to a present (non-`none`) descriptor. -/
theorem monitoring_payloads_described (cache : ShortIDCache) (hwf : CacheWF cache)
    (p : Plan) (c' : ShortIDCache) (m : Option Metrics) (infos : List MonitoringInfo)
    (pays : List (String × List Nat))
    (h : monitoring cache p = Except.ok (c', m, infos, pays))
    (s : String) (hs : s ∈ pays.map Prod.fst) :
    assocLookup (c'.shortIdsToInfos (pays.map Prod.fst)) s =
      some (assocLookup c'.shortIds2Infos s) ∧
    (assocLookup c'.shortIds2Infos s).isSome := by
  have hpd : PayloadsDescribed c' pays := by
    obtain ⟨pst, ppr⟩ := p
    cases pst with
    | none =>
      simp only [monitoring, Except.ok.injEq, Prod.mk.injEq] at h
      obtain ⟨rfl, -, -, rfl⟩ := h
      exact fun q hq => absurd hq (List.not_mem_nil q)
    | some store =>
      simp only [monitoring] at h
      cases hl : legacyPass store with
      | error e =>
        simp only [hl] at h
        exact Except.noConfusion h
      | ok transforms =>
        simp only [hl] at h
        cases hi : infoPass cache store with
        | error e =>
          simp only [hi] at h
          exact Except.noConfusion h
        | ok st2 =>
          obtain ⟨c2, i2, p2⟩ := st2
          simp only [hi] at h
          have hinv := infoPass_inv hwf hi
          cases ppr with
          | none =>
            simp only [Except.ok.injEq, Prod.mk.injEq] at h
            obtain ⟨rfl, -, -, rfl⟩ := h
            exact hinv.2
          | some snap =>
            simp only [int64Counter, encodeVarIntBuf, Except.ok.injEq, Prod.mk.injEq] at h
            obtain ⟨rfl, -, -, rfl⟩ := h
            exact hinv.2
  constructor
  · simp only [ShortIDCache.shortIdsToInfos]
    exact assocLookup_map_self _ _ _ hs
  · obtain ⟨q, hq, hq1⟩ := List.mem_map.mp hs
    have := hpd q hq
    rwa [hq1] at this

theorem monitoring_payloads_described_witness :
    assocLookup (cacheA.shortIdsToInfos ([((("1") : String), ([7] : List Nat))].map Prod.fst)) ("1") =
      some (assocLookup cacheA.shortIds2Infos ("1")) ∧
    (assocLookup cacheA.shortIds2Infos ("1")).isSome :=
  monitoring_payloads_described newShortIDCache newShortIDCache_wf
    { store := some store4, progress := none } cacheA (some metrics4) [info4]
    [((("1") : String), [7])] (by decide) ("1") (by decide)

/-- C8 counterexample: with a user sum metric recorded on transform `pc1`
in pass 1 and the progress snapshot `{ID, Name, PID, Count} =
{pc1, pc1, pc1, 42}`, the legacy tree's entry for `pc1` ends with an
empty user-metric list — `monitoring` replaces the transform's entry with
one holding only the element count, so the user metric previously
recorded under that transform does not remain unchanged as the claim
states. -/
theorem monitoring_progress_overwrite_counterexample :
    (match monitoring newShortIDCache { store := some store8, progress := some snap8 } with
     | Except.ok (_, some m, _, _) => assocLookup m.Ptransforms ("pc1")
     | _ => none) =
      some { User := [], ProcessedElements := some [(("pc1"), 42)] } := by
  decide

/-- C8 (amended): supplying a progress snapshot changes neither the cache
nor the payload map; it *replaces* the legacy tree's entry for the
snapshot's transform id with an entry holding only
`processedElements[Name] = Count` (dropping any user metrics recorded
under that transform, while entries of other transforms are unchanged),
and appends exactly one metadata record with the built-in element-count
urn and the single label `PCOLLECTION = PID`. -/
theorem monitoring_progress_merge (cache : ShortIDCache) (st : MetricsStore)
    (snap : ProgressReportSnapshot) (c' : ShortIDCache) (tree : Metrics)
    (infos : List MonitoringInfo) (pays : List (String × List Nat))
    (h : monitoring cache { store := some st, progress := none } =
      Except.ok (c', some tree, infos, pays)) :
    monitoring cache { store := some st, progress := some snap } =
      Except.ok (c',
        some (Metrics.mk (assocInsert tree.Ptransforms snap.ID
          (Metrics_PTransform.mk [] (some [(snap.Name, snap.Count)])))),
        infos ++ [MonitoringInfo.mk ("beam:metric:element_count:v1")
          ("beam:metrics:sum_int64:v1") [(("PCOLLECTION"), snap.PID)]
          (encodeVarInt snap.Count)],
        pays) := by
  simp only [monitoring] at h ⊢
  cases hl : legacyPass st with
  | error e =>
    simp only [hl] at h
    exact Except.noConfusion h
  | ok transforms =>
    simp only [hl] at h ⊢
    cases hi : infoPass cache st with
    | error e =>
      simp only [hi] at h
      exact Except.noConfusion h
    | ok st2 =>
      obtain ⟨c2, i2, p2⟩ := st2
      simp only [hi, Except.ok.injEq, Prod.mk.injEq, Option.some.injEq] at h ⊢
      obtain ⟨rfl, htree, rfl, rfl⟩ := h
      subst htree
      simp only [int64Counter, encodeVarIntBuf, List.nil_append, Except.ok.injEq,
        Prod.mk.injEq, Option.some.injEq, Metrics.mk.injEq, MonitoringInfo.mk.injEq,
        List.append_cancel_left_eq, List.cons.injEq, and_true, true_and]
      exact ⟨rfl, rfl⟩

theorem monitoring_progress_merge_witness :
    monitoring newShortIDCache { store := some store4, progress := some snap8 } =
      Except.ok (cacheA,
        some (Metrics.mk (assocInsert metrics4.Ptransforms snap8.ID
          (Metrics_PTransform.mk [] (some [(snap8.Name, snap8.Count)])))),
        [info4] ++ [MonitoringInfo.mk ("beam:metric:element_count:v1")
          ("beam:metrics:sum_int64:v1") [(("PCOLLECTION"), snap8.PID)]
          (encodeVarInt snap8.Count)],
        [((("1") : String), [7])]) :=
  monitoring_progress_merge newShortIDCache store4 snap8 cacheA metrics4 [info4]
    [((("1") : String), [7])] (by decide)

theorem encoders_concat_varints_witness :
    int64Distribution 3 30 5 15 =
      Except.ok (encodeVarInt 3 ++ encodeVarInt 30 ++ encodeVarInt 5 ++ encodeVarInt 15) ∧
    int64Latest 1000 9 = Except.ok (encodeVarInt 1000 ++ encodeVarInt 9) ∧
    int64Distribution 3 30 5 15 =
      Except.ok (encodeVarInt 3 ++ encodeVarInt 30 ++ encodeVarInt 5 ++ encodeVarInt 15) ∧
    int64Distribution 3 30 5 15 = Except.ok [3, 30, 5, 15] :=
  encoders_concat_varints 3 30 5 15 1000 9

theorem int64_encoders_never_fail_witness :
    (∃ b, int64Counter 7 = Except.ok b) ∧
    (∃ b, int64Distribution 3 30 5 15 = Except.ok b) :=
  int64_encoders_never_fail 7 3 30 5 15

theorem monitoring_empty_store_witness :
    monitoring newShortIDCache { store := none, progress := none } =
      Except.ok (newShortIDCache, none, [], []) ∧
    monitoring newShortIDCache { store := some {}, progress := none } =
      Except.ok (newShortIDCache, some { Ptransforms := [] }, [], []) :=
  monitoring_empty_store newShortIDCache
